import Mathlib

/-!
Verification of the Lighthouse CI orchestrator against its natural-language
specification.  The Go sources are shallowly embedded as Lean definitions:
pure functions become Lean functions, Go panics become `Option`-valued
results (`none` marks the panic), Go `int` becomes `Int` with the exact
truncated modulus `Int.tmod` where the source uses `%`, and Go strings are
modelled as Lean `String` (character-based slicing; all the strings the
source manipulates here are ASCII, where Go's byte indexing and character
indexing coincide).
-/

set_option maxHeartbeats 1000000
set_option maxRecDepth 4000

namespace Lighthouse

/-! ## pkg/apis/lighthouse/v1alpha1: pipeline states and pulls

`PipelineState` mirrors the constants TriggeredState, PendingState,
RunningState, SuccessState, FailureState, AbortedState and ErrorState used
throughout foghorn and the launcher (the defining file of the constants is
not under src/; the set of states is taken from the spec's data model and
from the uses in src/unnamed/part_001). -/

inductive PipelineState where
  | triggered
  | pending
  | running
  | success
  | failure
  | aborted
  | error
  deriving DecidableEq, Repr

/-- The go-scm commit-status states consumed through the SCM abstraction
(scm.StateUnknown, StatePending, StateRunning, StateSuccess, StateFailure,
StateError, StateCanceled).  The library itself is an out-of-scope external
collaborator; only the enumeration is needed. -/
inductive ScmState where
  | unknown
  | pending
  | running
  | success
  | failure
  | error
  | canceled
  deriving DecidableEq, Repr

/-- Modelled from the spec: go-scm's scm.ToState converts the stored string
form of a state back to the enumeration (the SCM client library is an
external collaborator referenced by its contract only). -/
def toState (s : String) : ScmState :=
  if s = "pending" then ScmState.pending
  else if s = "running" then ScmState.running
  else if s = "success" then ScmState.success
  else if s = "failure" then ScmState.failure
  else if s = "error" then ScmState.error
  else if s = "canceled" then ScmState.canceled
  else ScmState.unknown

/-- Modelled from the spec: go-scm's scm.State.String, the inverse string
form used when recording lastReportState on the job. -/
def stateString (s : ScmState) : String :=
  match s with
  | ScmState.unknown => "unknown"
  | ScmState.pending => "pending"
  | ScmState.running => "running"
  | ScmState.success => "success"
  | ScmState.failure => "failure"
  | ScmState.error => "error"
  | ScmState.canceled => "canceled"

/-- v1alpha1.Pull (the fields the claims touch; the remaining metadata
fields carry no behaviour). -/
structure Pull where
  Number : Int
  SHA : String
  Title : String
  Ref : String
  deriving DecidableEq, Repr

instance : Inhabited Pull := ⟨⟨0, "", "", ""⟩⟩

/-! ## pkg/keeper/history (src/unnamed/part_001 lines 17-213) -/

/-- history.Record: one action Keeper has taken (time modelled as a Nat
tick, matching the mocked-out clock in the source). -/
structure Record where
  Time : Nat
  Action : String
  BaseSHA : String
  Target : List Pull
  Err : String
  deriving DecidableEq, Repr

instance : Inhabited Record := ⟨⟨0, "", "", [], ""⟩⟩

/-- history.recordLog: a space efficient, limited size, append only list.
The source's cachedSlice memoization field is omitted: it is invalidated at
the top of every add and only ever holds the value that toSlice computes,
so it is semantically transparent. -/
structure RecordLog where
  buff : List Record
  head : Int
  limit : Nat
  deriving DecidableEq, Repr

/-- history.newRecordLog. -/
def newRecordLog (sizeLimit : Nat) : RecordLog :=
  { buff := [], head := -1, limit := sizeLimit }

/-- history.recordLog.add.  Go panics are surfaced as `none`: the first
guard models the integer-divide-by-zero panic of (rl.head + 1) % rl.limit
when the limit is 0, and the bounds guard models the index-out-of-range
panic of rl.buff[rl.head] = rec (Go's % on int is truncated division,
i.e. Int.tmod). -/
def RecordLog.add (rl : RecordLog) (rec : Record) : Option RecordLog :=
  if rl.limit = 0 then none
  else
    let h := Int.tmod (rl.head + 1) (rl.limit : Int)
    if rl.buff.length < rl.limit then
      some { rl with buff := rl.buff ++ [rec], head := h }
    else if 0 ≤ h ∧ h.toNat < rl.buff.length then
      some { rl with buff := rl.buff.set h.toNat rec, head := h }
    else none

/-- history.recordLog.toSlice: reads the ring in reverse-chronological
order; entry i of the result is rl.buff[(rl.limit + rl.head - i) % rl.limit].
Go's indexing panic cannot fire on reachable logs, where the index is
always in range; out-of-range reads fall back to a default record. -/
def RecordLog.toSlice (rl : RecordLog) : List Record :=
  (List.range rl.buff.length).map fun (i : Nat) =>
    rl.buff.getD (Int.toNat (Int.tmod ((rl.limit : Int) + rl.head - ((i : Nat) : Int)) (rl.limit : Int))) default

/-- Iterated recordLog.add, propagating the panic: the per-key effect of a
sequence of History.Record calls (history.History.addRecord feeds each new
record to the key's recordLog in call order). -/
def addAll : RecordLog → List Record → Option RecordLog
  | rl, [] => some rl
  | rl, r :: rs =>
    match rl.add r with
    | none => none
    | some rl' => addAll rl' rs

/-- Modelled from the spec: v1alpha1.ByNum orders pulls ascending by
Number (its defining file is not under src/; History.Record calls
sort.Sort(v1alpha1.ByNum(targets))).  sort.Sort is a comparison sort using
only this order; it is modelled as Mathlib's insertion sort, which agrees
with Go's sort on the short inputs used in the counterexample below. -/
def byNumLE (a b : Pull) : Prop := a.Number ≤ b.Number

instance : DecidableRel byNumLE := fun a b => Int.decLe a.Number b.Number

instance : IsTotal Pull byNumLE := ⟨fun a b => Int.le_total a.Number b.Number⟩

instance : IsTrans Pull byNumLE := ⟨fun _ _ _ h1 h2 => le_trans h1 h2⟩

/-- The sort applied by History.Record before storing targets. -/
def sortPulls (targets : List Pull) : List Pull :=
  List.insertionSort byNumLE targets

/-- history.History.Record (src/unnamed/part_001 lines 91-104): the record
it appends to the pool's log, with targets sorted by v1alpha1.ByNum. -/
def History.mkRecord (t : Nat) (action baseSHA err : String) (targets : List Pull) : Record :=
  { Time := t
    Action := action
    BaseSHA := baseSHA
    Target := sortPulls targets
    Err := err }

/-! ### Reachable-state invariant of the ring -/

/-- States of a recordLog reachable from newRecordLog by adds: either the
ring is still filling (head sits on the last appended slot) or it is full
(head is some slot below the limit). -/
def RingInv (rl : RecordLog) : Prop :=
  1 ≤ rl.limit ∧
  ((rl.buff.length < rl.limit ∧ rl.head = (rl.buff.length : Int) - 1) ∨
   (rl.buff.length = rl.limit ∧ ∃ k : Nat, k < rl.limit ∧ rl.head = (k : Int)))

/-! ## pkg/foghorn (src/unnamed/part_001 lines 214-834) -/

/-- A stage of a pipeline activity (name plus its own pipeline state). -/
structure StageRecord where
  Name : String
  Status : PipelineState
  deriving DecidableEq, Repr

/-- v1alpha1.ActivityRecord: the progress report the pipeline engine emits,
with the fields the foghorn controller reads.  Times are abstract ticks. -/
structure ActivityRecord where
  Name : String
  Owner : String
  Repo : String
  Branch : String
  BuildIdentifier : String
  Context : String
  GitURL : String
  LastCommitSHA : String
  Status : PipelineState
  CompletionTime : Option Nat
  Stages : List StageRecord
  deriving DecidableEq, Repr

/-- Modelled from the spec: ActivityRecord.RunningStages() (its defining
file is not under src/) — the names of the stages currently running. -/
def ActivityRecord.runningStages (a : ActivityRecord) : List String :=
  (a.Stages.filter (fun s => s.Status == PipelineState.running)).map (fun s => s.Name)

/-- v1alpha1.LighthouseJobStatus, restricted to the fields foghorn reads
and writes.  The Status.Activity pointer is carried separately by the
callers. -/
structure LighthouseJobStatus where
  State : PipelineState
  ActivityName : String
  Description : String
  ReportURL : String
  LastCommitSHA : String
  LastReportState : String
  CompletionTime : Option Nat
  deriving DecidableEq, Repr

/-- foghorn.Controller.updateJobStatusForActivity (src/unnamed/part_001
lines 520-530): project the activity into the job status.  Go compares the
CompletionTime pointers; here the comparison is by value, which only makes
the copy fire in more of the unobservable cases and never changes the
stored value. -/
def updateJobStatusForActivity (activity : ActivityRecord) (status : LighthouseJobStatus) :
    LighthouseJobStatus :=
  let s1 := if activity.Status ≠ status.State then { status with State := activity.Status } else status
  let s2 := if activity.LastCommitSHA ≠ s1.LastCommitSHA then
    { s1 with LastCommitSHA := activity.LastCommitSHA } else s1
  if activity.CompletionTime.isSome ∧ activity.CompletionTime ≠ s2.CompletionTime then
    { s2 with CompletionTime := activity.CompletionTime }
  else s2

/-- foghorn.reportStatusInfo. -/
structure reportStatusInfo where
  scmStatus : ScmState
  description : String
  runningStages : String
  deriving DecidableEq, Repr

/-- The description built for an activity with running stages
(fmt.Sprintf inside toScmStatusDescriptionRunningStages). -/
def runningStagesDescription (stages : List String) : String :=
  "Pipeline running stage(s): " ++ String.intercalate ", " stages

/-- foghorn.toScmStatusDescriptionRunningStages (src/unnamed/part_001
lines 708-743).  String slicing is character-based; the descriptions the
source builds are ASCII, where Go's byte slicing coincides. -/
def toScmStatusDescriptionRunningStages (activity : ActivityRecord) (gitKind : String) :
    reportStatusInfo :=
  let info :=
    match activity.Status with
    | PipelineState.success =>
      ({ scmStatus := ScmState.success, description := "Pipeline successful",
         runningStages := "" } : reportStatusInfo)
    | PipelineState.running =>
      { scmStatus := ScmState.running, description := "Pipeline running", runningStages := "" }
    | PipelineState.pending =>
      { scmStatus := ScmState.running, description := "Pipeline running", runningStages := "" }
    | PipelineState.aborted =>
      { scmStatus := ScmState.error, description := "Error executing pipeline", runningStages := "" }
    | PipelineState.failure =>
      { scmStatus := ScmState.failure, description := "Pipeline failed", runningStages := "" }
    | _ =>
      { scmStatus := ScmState.unknown, description := "Pipeline in unknown state",
        runningStages := "" }
  let runningStages := activity.runningStages
  if runningStages ≠ [] ∧ gitKind ≠ "gitlab" then
    let desc := runningStagesDescription runningStages
    { info with
        runningStages := String.intercalate "," runningStages
        description := if desc.length > 63 then desc.take 59 ++ "..." else desc }
  else info

/-- go-scm scm.StatusInput: the commit status posted to the provider. -/
structure StatusInput where
  State : ScmState
  Label : String
  Desc : String
  Target : String
  deriving DecidableEq, Repr

/-- foghorn.Controller.reportStatus (src/unnamed/part_001 lines 541-662),
as a pure function from the inputs the method reads to the pair of the
CreateStatus call it performs (none when it returns before posting) and
the job status it leaves behind.  The environment-derived target URL
(getReportURLBase/createReportTargetURL) is abstracted as the urlBase and
renderedTargetURL arguments; clientOk and createStatusOk stand for the
success of the SCM client construction and of the CreateStatus call.
The external-plugin fanout and the PR-comment reporter have no effect on
the job status (reporter errors are swallowed) and are not modelled. -/
def reportStatus (gitKind urlBase renderedTargetURL : String)
    (clientOk createStatusOk : Bool)
    (activity : ActivityRecord) (status : LighthouseJobStatus) :
    Option StatusInput × LighthouseJobStatus :=
  let statusInfo := toScmStatusDescriptionRunningStages activity gitKind
  if activity.GitURL = "" then (none, status)
  else if activity.LastCommitSHA = "" then (none, status)
  else if activity.Owner = "" then (none, status)
  else if activity.Repo = "" then (none, status)
  else if statusInfo.scmStatus = ScmState.unknown then (none, status)
  else if toState status.LastReportState = ScmState.failure ∨
      toState status.LastReportState = ScmState.error ∨
      toState status.LastReportState = ScmState.success ∨
      toState status.LastReportState = ScmState.canceled then (none, status)
  else if toState status.LastReportState = statusInfo.scmStatus ∧
      status.Description = statusInfo.description then (none, status)
  else
    let pipelineContext := if activity.Context = "" then "jenkins-x" else activity.Context
    let target :=
      if urlBase ≠ "" ∧
          ("http://".isPrefixOf renderedTargetURL ∨ "https://".isPrefixOf renderedTargetURL) then
        renderedTargetURL
      else ""
    let gitRepoStatus : StatusInput :=
      { State := statusInfo.scmStatus, Label := pipelineContext,
        Desc := statusInfo.description, Target := target }
    if clientOk = false then (none, status)
    else if createStatusOk = false then (some gitRepoStatus, status)
    else
      (some gitRepoStatus,
        { status with
            ReportURL := if gitRepoStatus.Target ≠ "" then gitRepoStatus.Target else status.ReportURL
            Description := statusInfo.description
            LastReportState := stateString statusInfo.scmStatus })

/-! ## pkg/webhook/webhook.go -/

/-- go-scm scm.Repository, restricted to the fields the dispatcher reads. -/
structure Repository where
  Namespace : String
  Name : String
  FullName : String
  Link : String
  Branch : String
  deriving DecidableEq, Repr

/-- The webhook kinds the dispatcher distinguishes (scm.PingHook,
scm.PushHook, scm.PullRequestHook, scm.BranchHook, scm.IssueCommentHook,
scm.PullRequestCommentHook, scm.ReviewHook, anything else). -/
inductive WebhookKind where
  | ping
  | push
  | pullRequest
  | branch
  | issueComment
  | pullRequestComment
  | review
  | unknown
  deriving DecidableEq, Repr

/-- Modelled from the spec: the event-kind string webhook.Kind() reports
for each hook shape (go-scm is an external collaborator). -/
def webhookKindString : WebhookKind → String
  | WebhookKind.ping => "ping"
  | WebhookKind.push => "push"
  | WebhookKind.pullRequest => "pull_request"
  | WebhookKind.branch => "branch"
  | WebhookKind.issueComment => "issue_comment"
  | WebhookKind.pullRequestComment => "pull_request_comment"
  | WebhookKind.review => "review"
  | WebhookKind.unknown => "unknown"

/-- A parsed webhook: its kind and the repository it targets
(webhook.Repository() in the source; the field is named Repo because the
accessor name collides with the Repository type). -/
structure Webhook where
  Kind : WebhookKind
  Repo : Repository

/-- The core configuration, seen through the two accessors ProcessWebHook
uses (the YAML config loader is an out-of-scope external collaborator):
GetPresubmits and GetPostsubmits return the job lists configured for a
repository. -/
structure Config where
  presubmits : Repository → List String
  postsubmits : Repository → List String

/-- plugins.ExternalPlugin: an external plugin endpoint with its event
subscriptions. -/
structure ExternalPlugin where
  Name : String
  Endpoint : String
  Events : List String
  deriving DecidableEq, Repr

/-- The plugin configuration, seen through the per-repo external-plugin
table. -/
structure PluginConfig where
  externalPlugins : String → List ExternalPlugin

/-- Modelled from the spec: util.ExternalPluginsForEvent (pkg/util is not
under src/) — "ExternalPluginsFor(repo, kind) returns webhooks to
re-dispatch events to, matched by event-kind subscription". -/
def externalPluginsForEvent (pc : PluginConfig) (eventKind repoFullName : String) :
    List ExternalPlugin :=
  (pc.externalPlugins repoFullName).filter (fun p => p.Events.contains eventKind)

/-- The observable outcome of Options.ProcessWebHook: the response body,
the returned error, and which internal handler was invoked (none when the
function returns before dispatching). -/
structure ProcessResult where
  output : String
  err : Option String
  handled : Option WebhookKind
  deriving Repr

/-- The per-kind dispatch tail of ProcessWebHook (src/pkg/webhook/webhook.go
lines 295-405): each recognized hook shape invokes its handler and yields
a fixed response string; unrecognized kinds log and answer with an
unknown-hook string without dispatching. -/
def dispatchWebHook (hook : Webhook) : ProcessResult :=
  match hook.Kind with
  | WebhookKind.push =>
    { output := "processed push hook", err := none, handled := some WebhookKind.push }
  | WebhookKind.pullRequest =>
    { output := "processed PR hook", err := none, handled := some WebhookKind.pullRequest }
  | WebhookKind.branch =>
    { output := "processed branch hook", err := none, handled := some WebhookKind.branch }
  | WebhookKind.issueComment =>
    { output := "processed issue comment hook", err := none,
      handled := some WebhookKind.issueComment }
  | WebhookKind.pullRequestComment =>
    { output := "processed PR comment hook", err := none,
      handled := some WebhookKind.pullRequestComment }
  | WebhookKind.review =>
    { output := "processed PR review hook", err := none, handled := some WebhookKind.review }
  | k =>
    { output := "unknown hook " ++ webhookKindString k, err := none, handled := none }

/-- Options.ProcessWebHook (src/pkg/webhook/webhook.go lines 267-406).
appMode is util.GetGitHubAppSecretDir() being nonempty together with a
non-nil server ConfigAgent; cfg is the agent's current Config (nil when
none was loaded). -/
def processWebHook (version : String) (appMode : Bool) (cfg : Option Config) (hook : Webhook) :
    ProcessResult :=
  if hook.Kind = WebhookKind.ping then
    { output := "pong from lighthouse " ++ version, err := none, handled := none }
  else
    match appMode, cfg with
    | true, some c =>
      if (c.postsubmits hook.Repo).length = 0 ∧ (c.presubmits hook.Repo).length = 0 then
        { output := "", err := some ("repository not configured: " ++ hook.Repo.Link),
          handled := none }
      else dispatchWebHook hook
    | _, _ => dispatchWebHook hook

/-- The HTTP-visible outcome of one webhook POST. -/
structure HookResponse where
  status : Nat
  body : String
  handled : Option WebhookKind
  externals : List ExternalPlugin

/-- The tail of Options.handleWebHookRequests (src/pkg/webhook/webhook.go
lines 251-263), after parsing and credential setup: run ProcessWebHook,
write a 500 error response when it errs (the handler does NOT return
there), and in either case demux the event to the external plugins
subscribed to this kind for the repository. -/
def handleWebHookRequests (version : String) (appMode : Bool) (cfg : Option Config)
    (plugins : PluginConfig) (hook : Webhook) : HookResponse :=
  let r := processWebHook version appMode cfg hook
  let resp : Nat × String :=
    match r.err with
    | some e => (500, "500 Internal Server Error: " ++ e)
    | none => (200, r.output)
  { status := resp.1
    body := resp.2
    handled := r.handled
    externals := externalPluginsForEvent plugins (webhookKindString hook.Kind) hook.Repo.FullName }

/-- The config-load state of the webhook server, for phrasing readiness. -/
structure WebhookOptions where
  coreConfigLoaded : Bool
  pluginConfigLoaded : Bool
  deriving DecidableEq, Repr

/-- Options.isReady (src/pkg/webhook/webhook.go lines 161-164): the TODO
stub in the source returns true unconditionally, ignoring the config-load
state. -/
def isReady (_o : WebhookOptions) : Bool := true

/-- Options.ready (lines 138-146): 204 when isReady, else 503. -/
def ready (o : WebhookOptions) : Nat :=
  if isReady o then 204 else 503

/-- Options.health (lines 132-136): always 204. -/
def health (_o : WebhookOptions) : Nat := 204

/-! ## pkg/launcher/launcher.go -/

/-- The job types (config.PresubmitJob and friends). -/
inductive JobType where
  | presubmit
  | postsubmit
  | batch
  | periodic
  deriving DecidableEq, Repr

/-- v1alpha1.Refs, restricted to what the launcher branch logic reads. -/
structure Refs where
  Org : String
  Repo : String
  BaseRef : String
  BaseSHA : String
  Pulls : List Pull

/-- v1alpha1.LighthouseJobSpec, restricted likewise.  The Go field Type is
renamed SpecType because Type is a Lean keyword. -/
structure LighthouseJobSpec where
  SpecType : JobType
  Job : String
  Context : String
  Refs : Refs

/-- launcher.launcher.getBranch (src/pkg/launcher/launcher.go lines
131-143). -/
def getBranch (spec : LighthouseJobSpec) : String :=
  let branch := spec.Refs.BaseRef
  if spec.SpecType = JobType.postsubmit then branch
  else if spec.SpecType = JobType.batch then "batch"
  else
    match spec.Refs.Pulls with
    | p :: _ => "PR-" ++ toString p.Number
    | [] => branch

/-- The branch computed inside launcher.Launch (lines 55-61): getBranch,
falling back to the repository default branch and then to master. -/
def launchBranch (spec : LighthouseJobSpec) (repoBranch : String) : String :=
  let b1 := getBranch spec
  let b2 := if b1 = "" then repoBranch else b1
  if b2 = "" then "master" else b2

/-- metapipeline.PipelineKind, as chosen in Launch. -/
inductive PipelineKind where
  | pullRequest
  | release
  deriving DecidableEq, Repr

/-- The pipeline kind computed inside launcher.Launch (lines 66-72). -/
def launchPipelineKind (spec : LighthouseJobSpec) : PipelineKind :=
  match spec.Refs.Pulls with
  | _ :: _ => PipelineKind.pullRequest
  | [] => PipelineKind.release

/-! ## Vocabulary from the spec and concrete scenario data -/

/-- The terminal pipeline states of the spec invariant
(success, failure, aborted, error). -/
def isTerminalState : PipelineState → Bool
  | PipelineState.success => true
  | PipelineState.failure => true
  | PipelineState.aborted => true
  | PipelineState.error => true
  | _ => false

/-- Strict by-number order on pulls, for stating order independence of the
stored target lists. -/
def byNumLT (a b : Pull) : Prop := a.Number < b.Number

instance : IsAntisymm Pull byNumLT :=
  ⟨fun _ _ h1 h2 => absurd h1 (lt_asymm h2)⟩

/-- A job activity in the running state (scenario data). -/
def c1Activity : ActivityRecord :=
  { Name := "demo", Owner := "org", Repo := "repo", Branch := "master",
    BuildIdentifier := "7", Context := "unit", GitURL := "https://github.com/org/repo.git",
    LastCommitSHA := "abc", Status := PipelineState.running, CompletionTime := none,
    Stages := [] }

/-- A job status already in the terminal success state (scenario data). -/
def c1Status : LighthouseJobStatus :=
  { State := PipelineState.success, ActivityName := "demo",
    Description := "Pipeline successful", ReportURL := "", LastCommitSHA := "abc",
    LastReportState := "success", CompletionTime := none }

/-- A failed activity arriving after the job already reported success
(spec scenario: terminal report skip). -/
def c2Activity : ActivityRecord :=
  { Name := "demo", Owner := "org", Repo := "repo", Branch := "master",
    BuildIdentifier := "7", Context := "unit", GitURL := "https://github.com/org/repo.git",
    LastCommitSHA := "abc", Status := PipelineState.failure, CompletionTime := some 9,
    Stages := [] }

/-- A job status whose last reported state is terminal (scenario data). -/
def c2Status : LighthouseJobStatus :=
  { State := PipelineState.success, ActivityName := "demo",
    Description := "Pipeline successful", ReportURL := "", LastCommitSHA := "abc",
    LastReportState := "success", CompletionTime := none }

/-- The unconfigured repository of the spec scenario. -/
def c3Repo : Repository :=
  { Namespace := "org", Name := "unknown", FullName := "org/unknown",
    Link := "https://github.com/org/unknown", Branch := "master" }

/-- A pull-request webhook from the unconfigured repository. -/
def c3Hook : Webhook := { Kind := WebhookKind.pullRequest, Repo := c3Repo }

/-- A core config that knows no presubmits and no postsubmits at all. -/
def c3Config : Config := { presubmits := fun _ => [], postsubmits := fun _ => [] }

/-- A plugin config with one external plugin subscribed to pull_request
events for every repository. -/
def c3Plugins : PluginConfig :=
  { externalPlugins := fun _ =>
      [{ Name := "cd-indicator", Endpoint := "http://cd-indicator/hook",
         Events := ["pull_request"] }] }

/-- An activity with six running stages, whose joined description exceeds
63 characters (spec scenario: description truncation). -/
def c5Activity : ActivityRecord :=
  { Name := "demo", Owner := "org", Repo := "repo", Branch := "master",
    BuildIdentifier := "7", Context := "unit", GitURL := "https://github.com/org/repo.git",
    LastCommitSHA := "abc", Status := PipelineState.running, CompletionTime := none,
    Stages :=
      [{ Name := "build", Status := PipelineState.running },
       { Name := "test", Status := PipelineState.running },
       { Name := "package", Status := PipelineState.running },
       { Name := "publish", Status := PipelineState.running },
       { Name := "notify", Status := PipelineState.running },
       { Name := "deploy", Status := PipelineState.running }] }

/-- A numbered history record (scenario data for the ring). -/
def c6rec (n : Nat) : Record :=
  { Time := n, Action := "TRIGGER", BaseSHA := "d0", Target := [], Err := "" }

/-- A postsubmit job spec with an empty baseRef and no pulls. -/
def c7Spec : LighthouseJobSpec :=
  { SpecType := JobType.postsubmit, Job := "release", Context := "",
    Refs := { Org := "org", Repo := "repo", BaseRef := "", BaseSHA := "d0", Pulls := [] } }

/-- A ping webhook from a repository no configuration knows about. -/
def c8Repo : Repository :=
  { Namespace := "org", Name := "mystery", FullName := "org/mystery",
    Link := "https://github.com/org/mystery", Branch := "master" }

/-- A ping webhook from that repository. -/
def c8Hook : Webhook := { Kind := WebhookKind.ping, Repo := c8Repo }

/-- A core config with no presubmits and no postsubmits anywhere. -/
def c8Config : Config := { presubmits := fun _ => [], postsubmits := fun _ => [] }

/-- Two pulls sharing the same number with different SHAs. -/
def c9dupA : Pull := { Number := 5, SHA := "aaa", Title := "first", Ref := "pull/5/head" }

/-- The other pull with the duplicated number. -/
def c9dupB : Pull := { Number := 5, SHA := "bbb", Title := "second", Ref := "pull/5/head" }

/-- Pulls with distinct numbers (scenario data for order independence). -/
def c9p1 : Pull := { Number := 1, SHA := "abc", Title := "one", Ref := "pull/1/head" }

/-- The second distinct-numbered pull. -/
def c9p2 : Pull := { Number := 2, SHA := "def", Title := "two", Ref := "pull/2/head" }

/-- A record fed to a capacity-one ring (scenario data). -/
def c10rec : Record :=
  { Time := 1, Action := "MERGE", BaseSHA := "d0", Target := [], Err := "" }

/-! ## Proof development -/

lemma tmod_index {L : Nat} {a : Int} (y : Nat) (hy : y < L)
    (ha : a = ((L + y : Nat) : Int)) :
    (Int.tmod a ((L : Nat) : Int)).toNat = y := by
  subst ha
  have h1 : (Int.tmod (((L + y : Nat) : Int)) (((L : Nat)) : Int)).toNat = (L + y) % L := rfl
  rw [h1, Nat.add_mod_left, Nat.mod_eq_of_lt hy]

lemma tmod_natCast (m L : Nat) :
    Int.tmod ((m : Int)) ((L : Int)) = ((m % L : Nat) : Int) := rfl

lemma add_not_full {rl : RecordLog} (rec : Record)
    (hlt : rl.buff.length < rl.limit) (hhead : rl.head = (rl.buff.length : Int) - 1) :
    rl.add rec = some { buff := rl.buff ++ [rec], head := (rl.buff.length : Int), limit := rl.limit } := by
  have h0 : ¬ rl.limit = 0 := by omega
  have he : Int.tmod (rl.head + 1) (rl.limit : Int) = (rl.buff.length : Int) := by
    have h2 : rl.head + 1 = (rl.buff.length : Int) := by omega
    rw [h2, tmod_natCast, Nat.mod_eq_of_lt hlt]
  simp only [RecordLog.add, h0, if_false, he, hlt, if_true]

lemma add_full {rl : RecordLog} (rec : Record) {k : Nat}
    (hlim : 1 ≤ rl.limit) (hfull : rl.buff.length = rl.limit)
    (hk : k < rl.limit) (hhead : rl.head = (k : Int)) :
    rl.add rec = some { buff := rl.buff.set ((k + 1) % rl.limit) rec,
                        head := (((k + 1) % rl.limit : Nat) : Int), limit := rl.limit } := by
  have h0 : ¬ rl.limit = 0 := by omega
  have he : Int.tmod (rl.head + 1) (rl.limit : Int) = (((k + 1) % rl.limit : Nat) : Int) := by
    have h2 : rl.head + 1 = ((k + 1 : Nat) : Int) := by omega
    rw [h2, tmod_natCast]
  have hnotlt : ¬ rl.buff.length < rl.limit := by omega
  have hmodlt : (k + 1) % rl.limit < rl.buff.length := by
    rw [hfull]; exact Nat.mod_lt _ (by omega)
  simp only [RecordLog.add, h0, if_false, he, hnotlt, Int.toNat_natCast]
  simp only [hmodlt, and_true, Int.natCast_nonneg, if_true]

lemma toSlice_add_not_full {rl : RecordLog} (rec : Record)
    (hlt : rl.buff.length < rl.limit) (hhead : rl.head = (rl.buff.length : Int) - 1) :
    RecordLog.toSlice { buff := rl.buff ++ [rec], head := (rl.buff.length : Int), limit := rl.limit }
      = rec :: rl.toSlice := by
  unfold RecordLog.toSlice
  simp only [List.length_append, List.length_cons, List.length_nil, Nat.zero_add]
  rw [List.range_succ_eq_map, List.map_cons, List.map_map]
  congr 1
  · -- the new head of the slice is the record just written
    have hidx : (Int.tmod ((rl.limit : Int) + (rl.buff.length : Int) - ((0 : Nat) : Int))
        ((rl.limit : Int))).toNat = rl.buff.length :=
      tmod_index rl.buff.length hlt (by push_cast; omega)
    rw [hidx, List.getD_eq_getElem?_getD, List.getElem?_append_right (Nat.le_refl _)]
    simp
  · -- the remaining entries shift by one and read the old buffer
    apply List.map_congr_left
    intro i hi
    have hi' : i < rl.buff.length := List.mem_range.mp hi
    have hidx1 : (Int.tmod ((rl.limit : Int) + (rl.buff.length : Int) - ((Nat.succ i : Nat) : Int))
        ((rl.limit : Int))).toNat = rl.buff.length - i - 1 :=
      tmod_index (rl.buff.length - i - 1) (by omega) (by push_cast; omega)
    have hidx2 : (Int.tmod ((rl.limit : Int) + rl.head - ((i : Nat) : Int))
        ((rl.limit : Int))).toNat = rl.buff.length - i - 1 :=
      tmod_index (rl.buff.length - i - 1) (by omega) (by push_cast; omega)
    simp only [Function.comp]
    rw [hidx1, hidx2, List.getD_eq_getElem?_getD, List.getD_eq_getElem?_getD,
      List.getElem?_append, if_pos (show rl.buff.length - i - 1 < rl.buff.length by omega)]

lemma tmod_toNat_mod {L : Nat} {a : Int} (m : Nat) (ha : a = (m : Int)) :
    (Int.tmod a ((L : Nat) : Int)).toNat = m % L := by
  subst ha; rfl

lemma idx_ne {L k i : Nat} (hk : k < L) (hi : i < L - 1) :
    (L + k - i) % L ≠ (k + 1) % L := by
  rcases le_or_lt i k with h | h
  · have h1 : L + k - i = L + (k - i) := by omega
    rw [h1, Nat.add_mod_left, Nat.mod_eq_of_lt (show k - i < L by omega)]
    rcases Nat.lt_or_ge (k + 1) L with h2 | h2
    · rw [Nat.mod_eq_of_lt h2]; omega
    · have h3 : k + 1 = L := by omega
      rw [h3, Nat.mod_self]; omega
  · rw [Nat.mod_eq_of_lt (show L + k - i < L by omega)]
    have h2 : (k + 1) % L ≤ k + 1 := Nat.mod_le _ _
    omega

lemma toSlice_add_full {rl : RecordLog} (rec : Record) {k : Nat}
    (hlim : 1 ≤ rl.limit) (hfull : rl.buff.length = rl.limit)
    (hk : k < rl.limit) (hhead : rl.head = (k : Int)) :
    RecordLog.toSlice { buff := rl.buff.set ((k + 1) % rl.limit) rec,
                        head := (((k + 1) % rl.limit : Nat) : Int), limit := rl.limit }
      = (rec :: rl.toSlice).take rl.limit := by
  have hKlt : (k + 1) % rl.limit < rl.limit := Nat.mod_lt _ (by omega)
  have htake : (rec :: rl.toSlice).take rl.limit = rec :: rl.toSlice.take (rl.limit - 1) := by
    conv_lhs => rw [show rl.limit = (rl.limit - 1) + 1 by omega]
    rw [List.take_succ_cons]
  have hslice : rl.toSlice.take (rl.limit - 1)
      = (List.range (rl.limit - 1)).map (fun (i : Nat) =>
          rl.buff.getD (Int.toNat (Int.tmod ((rl.limit : Int) + rl.head - ((i : Nat) : Int))
            (rl.limit : Int))) default) := by
    unfold RecordLog.toSlice
    rw [← List.map_take, hfull, List.take_range, min_eq_left (by omega)]
  rw [htake, hslice]
  unfold RecordLog.toSlice
  dsimp only
  have hlen : (rl.buff.set ((k + 1) % rl.limit) rec).length = rl.limit := by
    rw [List.length_set, hfull]
  rw [hlen]
  have hr : List.range rl.limit = 0 :: List.map Nat.succ (List.range (rl.limit - 1)) := by
    conv_lhs => rw [show rl.limit = (rl.limit - 1) + 1 by omega]
    exact List.range_succ_eq_map _
  rw [hr, List.map_cons, List.map_map]
  congr 1
  · -- slot head of the slice is the record just overwritten
    have hidx : (Int.tmod ((rl.limit : Int) + (((k + 1) % rl.limit : Nat) : Int) - ((0 : Nat) : Int))
        ((rl.limit : Int))).toNat = (k + 1) % rl.limit :=
      tmod_index _ hKlt (by push_cast; omega)
    rw [hidx, List.getD_eq_getElem?_getD, List.getElem?_set_self (by omega)]
    rfl
  · -- older entries shift by one and avoid the overwritten slot
    apply List.map_congr_left
    intro i hi
    have hi' : i < rl.limit - 1 := List.mem_range.mp hi
    simp only [Function.comp]
    have hidx2 : (Int.tmod ((rl.limit : Int) + rl.head - ((i : Nat) : Int))
        ((rl.limit : Int))).toNat = (rl.limit + k - i) % rl.limit :=
      tmod_toNat_mod (rl.limit + k - i) (by push_cast; omega)
    have hidx1 : (Int.tmod ((rl.limit : Int) + (((k + 1) % rl.limit : Nat) : Int)
        - ((Nat.succ i : Nat) : Int)) ((rl.limit : Int))).toNat
        = (rl.limit + k - i) % rl.limit := by
      rcases Nat.lt_or_ge (k + 1) rl.limit with hc | hc
      · rw [tmod_toNat_mod (rl.limit + k - i) ?heq]
        case heq =>
          rw [Nat.mod_eq_of_lt hc]
          push_cast
          omega
      · have h3 : k + 1 = rl.limit := by omega
        have h4 : (k + 1) % rl.limit = 0 := by rw [h3, Nat.mod_self]
        rw [h4, tmod_toNat_mod (rl.limit - i - 1) (by push_cast; omega)]
        rw [Nat.mod_eq_of_lt (show rl.limit - i - 1 < rl.limit by omega)]
        have h5 : rl.limit + k - i = rl.limit + (rl.limit - 1 - i) := by omega
        rw [h5, Nat.add_mod_left, Nat.mod_eq_of_lt (show rl.limit - 1 - i < rl.limit by omega)]
        omega
    rw [hidx1, hidx2, List.getD_eq_getElem?_getD, List.getD_eq_getElem?_getD,
      List.getElem?_set_ne (Ne.symm (idx_ne hk hi'))]

lemma toSlice_length (rl : RecordLog) : rl.toSlice.length = rl.buff.length := by
  unfold RecordLog.toSlice
  rw [List.length_map, List.length_range]

lemma RingInv.len_le {rl : RecordLog} (h : RingInv rl) : rl.buff.length ≤ rl.limit := by
  rcases h with ⟨hlim, ⟨hlt, _⟩ | ⟨hfull, _⟩⟩ <;> omega

lemma add_step {rl : RecordLog} (rec : Record) (h : RingInv rl) :
    ∃ rl', rl.add rec = some rl' ∧ RingInv rl' ∧ rl'.limit = rl.limit ∧
      rl'.buff.length = min (rl.buff.length + 1) rl.limit ∧
      rl'.toSlice = (rec :: rl.toSlice).take rl.limit := by
  obtain ⟨hlim, hcase⟩ := h
  rcases hcase with ⟨hlt, hhead⟩ | ⟨hfull, k, hk, hhead⟩
  · refine ⟨_, add_not_full rec hlt hhead, ?_, rfl, ?_, ?_⟩
    · refine ⟨hlim, ?_⟩
      rcases Nat.lt_or_ge (rl.buff.length + 1) rl.limit with h2 | h2
      · left
        constructor
        · simpa using h2
        · dsimp only
          simp only [List.length_append, List.length_cons, List.length_nil]
          push_cast
          omega
      · right
        constructor
        · simp only [List.length_append, List.length_cons, List.length_nil]
          omega
        · exact ⟨rl.buff.length, hlt, rfl⟩
    · simp only [List.length_append, List.length_cons, List.length_nil]
      omega
    · rw [toSlice_add_not_full rec hlt hhead]
      rw [List.take_of_length_le]
      simp only [List.length_cons, toSlice_length]
      omega
  · refine ⟨_, add_full rec hlim hfull hk hhead, ?_, rfl, ?_, ?_⟩
    · refine ⟨hlim, Or.inr ?_⟩
      constructor
      · simp only [List.length_set]
        exact hfull
      · exact ⟨(k + 1) % rl.limit, Nat.mod_lt _ (by omega), rfl⟩
    · simp only [List.length_set]
      omega
    · exact toSlice_add_full rec hlim hfull hk hhead

lemma take_append_take {α : Type _} (xs ys : List α) (L : Nat) :
    (xs ++ ys.take L).take L = (xs ++ ys).take L := by
  rw [List.take_append_eq_append_take, List.take_append_eq_append_take, List.take_take,
    min_eq_left (Nat.sub_le L xs.length)]

lemma addAll_spec (rs : List Record) : ∀ rl : RecordLog, RingInv rl →
    ∃ rl', addAll rl rs = some rl' ∧ RingInv rl' ∧ rl'.limit = rl.limit ∧
      rl'.buff.length = min (rl.buff.length + rs.length) rl.limit ∧
      rl'.toSlice = (rs.reverse ++ rl.toSlice).take rl.limit := by
  induction rs with
  | nil =>
    intro rl h
    refine ⟨rl, rfl, h, rfl, ?_, ?_⟩
    · have := h.len_le
      simp only [List.length_nil]
      omega
    · rw [List.reverse_nil, List.nil_append, List.take_of_length_le]
      rw [toSlice_length]
      exact h.len_le
  | cons r rs ih =>
    intro rl h
    obtain ⟨rl1, hadd, h1, hlim1, hlen1, hsl1⟩ := add_step r h
    obtain ⟨rl', haddAll, h', hlim', hlen', hsl'⟩ := ih rl1 h1
    refine ⟨rl', ?_, h', by omega, ?_, ?_⟩
    · simp only [addAll, hadd]
      exact haddAll
    · simp only [List.length_cons]
      omega
    · rw [hsl', hsl1, hlim1, take_append_take, List.reverse_cons, List.append_assoc,
        List.singleton_append]

/-- The empty ring satisfies the invariant once the limit is positive. -/
lemma ringInv_new {limit : Nat} (hlim : 1 ≤ limit) : RingInv (newRecordLog limit) := by
  refine ⟨hlim, Or.inl ⟨?_, ?_⟩⟩
  · simpa [newRecordLog] using hlim
  · simp [newRecordLog]

/-! ## Claim C1: monotonicity of job status state under reconciliation -/

/-- C1 counterexample: updateJobStatusForActivity has no terminal guard.
A job whose status.state is the terminal success is overwritten with the
non-terminal running state of the incoming activity, so a reconciliation
step does write a non-terminal state over a terminal one. -/
theorem updateJobStatus_terminal_regression :
    isTerminalState c1Status.State = true ∧
    (updateJobStatusForActivity c1Activity c1Status).State = PipelineState.running ∧
    isTerminalState (updateJobStatusForActivity c1Activity c1Status).State = false := by
  decide

/-- C1 (amended): updateJobStatusForActivity copies the activity status
into the job status unconditionally — the projected state always equals
the ActivityRecord's status, with no monotonicity guard, so a terminal
job state is overwritten whenever the activity reports a different
(possibly non-terminal) state. -/
theorem updateJobStatus_state_follows_activity
    (activity : ActivityRecord) (status : LighthouseJobStatus) :
    (updateJobStatusForActivity activity status).State = activity.Status := by
  simp only [updateJobStatusForActivity]
  split_ifs with h1 h2 h3 <;> simp_all

/-! ## Claim C2: terminal lastReportState is never re-reported -/

/-- C2: when status.LastReportState is one of success, failure, error or
canceled, reportStatus posts no commit status and returns the job status
unchanged; hence lastReportState can reach a terminal value at most once. -/
theorem reportStatus_skips_terminal
    (gitKind urlBase renderedTargetURL : String) (clientOk createStatusOk : Bool)
    (activity : ActivityRecord) (status : LighthouseJobStatus)
    (h : status.LastReportState = "success" ∨ status.LastReportState = "failure" ∨
      status.LastReportState = "error" ∨ status.LastReportState = "canceled") :
    reportStatus gitKind urlBase renderedTargetURL clientOk createStatusOk activity status
      = (none, status) := by
  have hterm : toState status.LastReportState = ScmState.failure ∨
      toState status.LastReportState = ScmState.error ∨
      toState status.LastReportState = ScmState.success ∨
      toState status.LastReportState = ScmState.canceled := by
    rcases h with h | h | h | h <;> rw [h] <;> simp [toState]
  simp only [reportStatus]
  by_cases h1 : activity.GitURL = ""
  · rw [if_pos h1]
  · rw [if_neg h1]
    by_cases h2 : activity.LastCommitSHA = ""
    · rw [if_pos h2]
    · rw [if_neg h2]
      by_cases h3 : activity.Owner = ""
      · rw [if_pos h3]
      · rw [if_neg h3]
        by_cases h4 : activity.Repo = ""
        · rw [if_pos h4]
        · rw [if_neg h4]
          by_cases h5 : (toScmStatusDescriptionRunningStages activity gitKind).scmStatus
              = ScmState.unknown
          · rw [if_pos h5]
          · rw [if_neg h5, if_pos hterm]

/-- C2 witness: a failed activity arriving after the job reported success
is skipped entirely. -/
theorem reportStatus_skips_terminal_witness :
    reportStatus "github" "" "" true true c2Activity c2Status = (none, c2Status) :=
  reportStatus_skips_terminal "github" "" "" true true c2Activity c2Status (Or.inl rfl)

/-! ## Claim C3: unconfigured repository in app mode -/

/-- C3 counterexample: the handler answers 500 with a body containing
repository not configured and invokes no internal handler, but it does
NOT return after writing the error response, so an external plugin
subscribed to the event kind for that repository is still invoked — the
no-plugins-invoked part of the claim is false. -/
theorem handleWebHook_unconfigured_still_demuxes :
    (handleWebHookRequests "1.0.0" true (some c3Config) c3Plugins c3Hook).status = 500 ∧
    (handleWebHookRequests "1.0.0" true (some c3Config) c3Plugins c3Hook).body
      = "500 Internal Server Error: repository not configured: https://github.com/org/unknown" ∧
    (handleWebHookRequests "1.0.0" true (some c3Config) c3Plugins c3Hook).handled = none ∧
    (handleWebHookRequests "1.0.0" true (some c3Config) c3Plugins c3Hook).externals ≠ [] := by
  decide

/-- C3 (amended): in GitHub-App mode with a populated config, a non-ping
webhook from a repository with no presubmits and no postsubmits yields a
500 response whose body contains repository not configured, and no
internal plugin handler runs (hence no LighthouseJob is created by this
process); external plugins subscribed to the event kind for the
repository are still notified, because the handler does not return after
writing the error response. -/
theorem handleWebHook_unconfigured_repo
    (version : String) (c : Config) (plugins : PluginConfig) (hook : Webhook)
    (hping : hook.Kind ≠ WebhookKind.ping)
    (hpost : c.postsubmits hook.Repo = []) (hpre : c.presubmits hook.Repo = []) :
    handleWebHookRequests version true (some c) plugins hook =
      { status := 500,
        body := "500 Internal Server Error: " ++ ("repository not configured: " ++ hook.Repo.Link),
        handled := none,
        externals := externalPluginsForEvent plugins (webhookKindString hook.Kind)
          hook.Repo.FullName } := by
  simp only [handleWebHookRequests, processWebHook]
  rw [if_neg hping]
  simp only [hpost, hpre, List.length_nil, and_self, if_true]

/-- C3 witness: the amended statement at the concrete scenario inputs. -/
theorem handleWebHook_unconfigured_repo_witness :
    handleWebHookRequests "2.0.0" true (some c3Config) c3Plugins c3Hook =
      { status := 500,
        body := "500 Internal Server Error: "
          ++ ("repository not configured: " ++ c3Hook.Repo.Link),
        handled := none,
        externals := externalPluginsForEvent c3Plugins (webhookKindString c3Hook.Kind)
          c3Hook.Repo.FullName } :=
  handleWebHook_unconfigured_repo "2.0.0" c3Config c3Plugins c3Hook (by decide) rfl rfl

/-! ## Claim C4: health and readiness endpoints -/

/-- C4 counterexample: before any config has been loaded, the /ready
endpoint still answers 204 (isReady is a stub returning true), not the
503 the claim requires. -/
theorem ready_204_before_any_config_load :
    ready { coreConfigLoaded := false, pluginConfigLoaded := false } = 204 ∧
    (204 : Nat) ≠ 503 := by
  decide

/-- C4 (amended): the /health endpoint always returns 204, and the /ready
endpoint also always returns 204 regardless of whether the core or plugin
config has been loaded, because isReady returns true unconditionally. -/
theorem health_and_ready_always_204 (o : WebhookOptions) :
    health o = 204 ∧ ready o = 204 :=
  ⟨rfl, rfl⟩

/-! ## Claim C5: description truncation rule -/

/-- C5: for an activity with running stages on a non-GitLab provider, the
reported description is the joined running-stages text; when that text
exceeds 63 characters it becomes its first 59 characters followed by
three dots (total length 62), and texts of length at most 63 pass through
unchanged. -/
theorem toScmStatusDescription_truncation
    (activity : ActivityRecord) (gitKind : String)
    (h1 : activity.runningStages ≠ []) (h2 : gitKind ≠ "gitlab") :
    ((runningStagesDescription activity.runningStages).length > 63 →
      (toScmStatusDescriptionRunningStages activity gitKind).description
        = (runningStagesDescription activity.runningStages).take 59 ++ "..." ∧
      (toScmStatusDescriptionRunningStages activity gitKind).description.length = 62) ∧
    ((runningStagesDescription activity.runningStages).length ≤ 63 →
      (toScmStatusDescriptionRunningStages activity gitKind).description
        = runningStagesDescription activity.runningStages) := by
  simp only [toScmStatusDescriptionRunningStages]
  rw [if_pos ⟨h1, h2⟩]
  constructor
  · intro hlen
    dsimp only
    rw [if_pos hlen]
    refine ⟨rfl, ?_⟩
    rw [String.length_append]
    have ht : ((runningStagesDescription activity.runningStages).take 59).length
        = min 59 (runningStagesDescription activity.runningStages).length := by
      rw [String.take_eq]
      show ((runningStagesDescription activity.runningStages).data.take 59).length
        = min 59 (runningStagesDescription activity.runningStages).data.length
      rw [List.length_take]
    rw [ht, min_eq_left (by omega)]
    decide
  · intro hlen
    dsimp only
    rw [if_neg (by omega)]

/-- C5 witness: six running stages join to a 72-character description,
which is reported as its first 59 characters plus three dots, 62 in all. -/
theorem toScmStatusDescription_truncation_witness :
    (toScmStatusDescriptionRunningStages c5Activity "github").description.length = 62 :=
  ((toScmStatusDescription_truncation c5Activity "github" (by decide) (by decide)).1
    (by decide)).2

/-! ## Claim C6: bounded ring with reverse-chronological snapshots -/

/-- C6: starting from a fresh recordLog of positive capacity, any
sequence of adds succeeds and leaves at most capacity-many records; the
retained records are exactly the most recent capacity-many (the oldest
overwritten first), and toSlice reads them most recent first. -/
theorem history_ring_bounded_reverse_chronological
    (limit : Nat) (hlim : 1 ≤ limit) (rs : List Record) :
    ∃ rl, addAll (newRecordLog limit) rs = some rl ∧
      rl.buff.length ≤ limit ∧
      rl.buff.length = min rs.length limit ∧
      rl.toSlice = rs.reverse.take limit := by
  obtain ⟨rl, h1, hinv, hlim2, hlen, hsl⟩ := addAll_spec rs _ (ringInv_new hlim)
  have hlimit : rl.limit = limit := hlim2
  refine ⟨rl, h1, ?_, ?_, ?_⟩
  · have := hinv.len_le
    omega
  · simpa [newRecordLog] using hlen
  · rw [hsl]
    have hempty : (newRecordLog limit).toSlice = [] := rfl
    rw [hempty, List.append_nil]
    rfl

/-- C6 witness: a capacity-2 ring fed three records keeps the last two,
newest first. -/
theorem history_ring_bounded_reverse_chronological_witness :
    ∃ rl, addAll (newRecordLog 2) [c6rec 1, c6rec 2, c6rec 3] = some rl ∧
      rl.buff.length ≤ 2 ∧
      rl.buff.length = min ([c6rec 1, c6rec 2, c6rec 3] : List Record).length 2 ∧
      rl.toSlice = ([c6rec 1, c6rec 2, c6rec 3] : List Record).reverse.take 2 :=
  history_ring_bounded_reverse_chronological 2 (by decide) [c6rec 1, c6rec 2, c6rec 3]

/-! ## Claim C7: launcher branch and pipeline kind derivation -/

lemma launchBranch_fallback {spec : LighthouseJobSpec} (repoBranch : String)
    (h : getBranch spec = spec.Refs.BaseRef) :
    launchBranch spec repoBranch =
      (if spec.Refs.BaseRef ≠ "" then spec.Refs.BaseRef
       else if repoBranch ≠ "" then repoBranch else "master") := by
  simp only [launchBranch, h]
  by_cases hbr : spec.Refs.BaseRef = "" <;> by_cases hrb : repoBranch = "" <;>
    simp [hbr, hrb]

/-- C7: with an empty pulls list the pipeline kind is release and (except
for batch jobs, whose branch is the fixed batch) the branch falls back
from the spec's baseRef to the repository default branch to master; a
postsubmit's branch is its baseRef with the same fallback, a batch job's
branch is batch, and any other spec with pulls gets branch PR-n from the
first pull's number with a pullRequest pipeline kind. -/
theorem launch_branch_and_kind (spec : LighthouseJobSpec) (repoBranch : String) :
    (spec.Refs.Pulls = [] → launchPipelineKind spec = PipelineKind.release) ∧
    (spec.Refs.Pulls = [] → spec.SpecType ≠ JobType.batch →
      launchBranch spec repoBranch =
        (if spec.Refs.BaseRef ≠ "" then spec.Refs.BaseRef
         else if repoBranch ≠ "" then repoBranch else "master")) ∧
    (spec.SpecType = JobType.postsubmit →
      launchBranch spec repoBranch =
        (if spec.Refs.BaseRef ≠ "" then spec.Refs.BaseRef
         else if repoBranch ≠ "" then repoBranch else "master")) ∧
    (spec.SpecType = JobType.batch → launchBranch spec repoBranch = "batch") ∧
    (∀ p ps, spec.Refs.Pulls = p :: ps → spec.SpecType ≠ JobType.postsubmit →
      spec.SpecType ≠ JobType.batch →
      launchPipelineKind spec = PipelineKind.pullRequest ∧
      launchBranch spec repoBranch = "PR-" ++ toString p.Number) := by
  refine ⟨?_, ?_, ?_, ?_, ?_⟩
  · intro hnil
    simp [launchPipelineKind, hnil]
  · intro hnil hnb
    apply launchBranch_fallback
    simp only [getBranch, hnil]
    by_cases hpost : spec.SpecType = JobType.postsubmit
    · rw [if_pos hpost]
    · rw [if_neg hpost, if_neg hnb]
  · intro hpost
    apply launchBranch_fallback
    simp [getBranch, hpost]
  · intro hbatch
    have hg : getBranch spec = "batch" := by
      simp [getBranch, hbatch]
    simp [launchBranch, hg]
  · intro p ps hcons hnp hnb
    constructor
    · simp [launchPipelineKind, hcons]
    · have hg : getBranch spec = "PR-" ++ toString p.Number := by
        simp only [getBranch, hcons]
        rw [if_neg hnp, if_neg hnb]
      have hne : ("PR-" ++ toString p.Number : String) ≠ "" := by
        intro hcontra
        have h0 : ("PR-" ++ toString p.Number : String).length = 0 := by rw [hcontra]; rfl
        rw [String.length_append] at h0
        have h3 : ("PR-" : String).length = 3 := rfl
        omega
      simp [launchBranch, hg, hne]

/-- C7 witness: a postsubmit with empty baseRef falls back to the
repository default branch, and an empty pulls list gives a release
pipeline. -/
theorem launch_branch_and_kind_witness :
    launchBranch c7Spec "develop" = "develop" ∧
    launchPipelineKind c7Spec = PipelineKind.release := by
  constructor
  · rw [(launch_branch_and_kind c7Spec "develop").2.2.1 rfl]
    decide
  · exact (launch_branch_and_kind c7Spec "develop").1 rfl

/-! ## Claim C8: ping short-circuits before the app-mode check -/

/-- C8: a ping webhook is answered with a pong body and no error before
the app-mode unconfigured-repository check runs: for every app-mode flag
and config — including one that knows no presubmit or postsubmit for the
repository — the result is the pong output, a nil error, and no handler
dispatch, and the body starts with pong from lighthouse. -/
theorem processWebHook_ping_pong (version : String) (appMode : Bool) (cfg : Option Config)
    (hook : Webhook) (h : hook.Kind = WebhookKind.ping) :
    processWebHook version appMode cfg hook =
      { output := "pong from lighthouse " ++ version, err := none, handled := none } ∧
    ∃ rest, (processWebHook version appMode cfg hook).output
      = "pong from lighthouse" ++ rest := by
  have hmain : processWebHook version appMode cfg hook =
      { output := "pong from lighthouse " ++ version, err := none, handled := none } := by
    simp only [processWebHook]
    rw [if_pos h]
  refine ⟨hmain, " " ++ version, ?_⟩
  rw [hmain]
  show "pong from lighthouse " ++ version = "pong from lighthouse" ++ (" " ++ version)
  have hsp : ("pong from lighthouse " : String) = "pong from lighthouse" ++ " " := rfl
  rw [hsp, String.append_assoc]

/-- C8 witness: a ping from a repository no config knows, in app mode,
still gets the pong answer rather than the repository-not-configured
error. -/
theorem processWebHook_ping_pong_witness :
    processWebHook "0.5.1" true (some c8Config) c8Hook =
      { output := "pong from lighthouse " ++ "0.5.1", err := none, handled := none } :=
  (processWebHook_ping_pong "0.5.1" true (some c8Config) c8Hook rfl).1

/-! ## Claim C9: History.Record sorts targets by pull number -/

/-- C9 counterexample: two pulls with the same number and different SHAs
are stored in their arrival order (the sort only compares numbers), so
the stored record is NOT independent of the order in which targets were
passed: the two permutations of the same target set yield different
records. -/
theorem history_record_order_dependent_on_duplicates :
    ([c9dupA, c9dupB] : List Pull).Perm [c9dupB, c9dupA] ∧
    History.mkRecord 0 "MERGE" "d0" "" [c9dupA, c9dupB]
      ≠ History.mkRecord 0 "MERGE" "d0" "" [c9dupB, c9dupA] := by
  decide

/-- C9 (amended): History.Record stores the targets sorted ascending by
pull number — for EVERY input, duplicates included, the stored Target
list is a by-number-sorted permutation of the input; when the targets
carry pairwise-distinct pull numbers, the stored record — and hence
everything AllRecords later returns — is additionally independent of the
order in which the targets were passed in.  With duplicate numbers the
relative order of equal-numbered pulls still depends on the input
order. -/
theorem history_record_sorts_targets
    (t : Nat) (action baseSHA err : String) (targets targets2 : List Pull) :
    (History.mkRecord t action baseSHA err targets).Target.Sorted byNumLE ∧
    (History.mkRecord t action baseSHA err targets).Target.Perm targets ∧
    (targets.Perm targets2 →
      targets.Pairwise (fun a b => a.Number ≠ b.Number) →
      History.mkRecord t action baseSHA err targets
        = History.mkRecord t action baseSHA err targets2) := by
  have hsorted1 : (sortPulls targets).Sorted byNumLE := List.sorted_insertionSort _ _
  have hsorted2 : (sortPulls targets2).Sorted byNumLE := List.sorted_insertionSort _ _
  have hperm1 : (sortPulls targets).Perm targets := List.perm_insertionSort _ _
  have hperm2 : (sortPulls targets2).Perm targets2 := List.perm_insertionSort _ _
  refine ⟨hsorted1, hperm1, ?_⟩
  intro hperm hnodup
  have hchain : (sortPulls targets).Perm (sortPulls targets2) :=
    (hperm1.trans hperm).trans hperm2.symm
  have hne : ∀ {x y : Pull}, x.Number ≠ y.Number → y.Number ≠ x.Number :=
    fun h => fun hc => h hc.symm
  have hnodup1 : (sortPulls targets).Pairwise (fun a b => a.Number ≠ b.Number) :=
    (List.Perm.pairwise_iff hne hperm1).mpr hnodup
  have hnodup2 : (sortPulls targets2).Pairwise (fun a b => a.Number ≠ b.Number) := by
    refine (List.Perm.pairwise_iff hne hchain).mp hnodup1
  have hstrict1 : (sortPulls targets).Sorted byNumLT :=
    (hsorted1.and hnodup1).imp fun hab => lt_of_le_of_ne hab.1 hab.2
  have hstrict2 : (sortPulls targets2).Sorted byNumLT :=
    (hsorted2.and hnodup2).imp fun hab => lt_of_le_of_ne hab.1 hab.2
  have : sortPulls targets = sortPulls targets2 :=
    List.eq_of_perm_of_sorted hchain hstrict1 hstrict2
  simp only [History.mkRecord, this]

/-- C9 witness: with distinct pull numbers the stored target list is
sorted, a permutation of the input, and the two arrival orders store the
same record. -/
theorem history_record_sorts_targets_witness :
    (History.mkRecord 3 "TRIGGER" "d0" "" [c9p2, c9p1]).Target.Sorted byNumLE ∧
    (History.mkRecord 3 "TRIGGER" "d0" "" [c9p2, c9p1]).Target.Perm [c9p2, c9p1] ∧
    History.mkRecord 3 "TRIGGER" "d0" "" [c9p2, c9p1]
      = History.mkRecord 3 "TRIGGER" "d0" "" [c9p1, c9p2] := by
  obtain ⟨h1, h2, h3⟩ :=
    history_record_sorts_targets 3 "TRIGGER" "d0" "" [c9p2, c9p1] [c9p1, c9p2]
  exact ⟨h1, h2, h3 (by decide) (by decide)⟩

/-! ## Claim C10: recordLog.add is total exactly for positive capacity -/

/-- C10: every sequence of adds into a fresh recordLog of capacity at
least 1 runs to completion without panicking, while a recordLog created
with size limit 0 panics (integer division by zero when advancing the
head index) on its very first add. -/
theorem recordLog_add_total_iff_positive_capacity
    (limit : Nat) (hlim : 1 ≤ limit) (rs : List Record) (rec : Record) :
    (addAll (newRecordLog limit) rs).isSome ∧
    RecordLog.add (newRecordLog 0) rec = none := by
  constructor
  · obtain ⟨rl, h1, -, -, -, -⟩ := addAll_spec rs _ (ringInv_new hlim)
    rw [h1]
    rfl
  · rfl

/-- C10 witness: a capacity-1 ring accepts an add; a capacity-0 ring
panics at once. -/
theorem recordLog_add_total_iff_positive_capacity_witness :
    (addAll (newRecordLog 1) [c10rec]).isSome ∧
    RecordLog.add (newRecordLog 0) c10rec = none :=
  recordLog_add_total_iff_positive_capacity 1 (by decide) [c10rec] c10rec

end Lighthouse
